import Mathlib

/-!
Shallow embedding of the `ImageRestoration` class from
`src/image-restoration/test-upload.js` (the repository's core restoration
pipeline: validator, transformers, and the two-stage restore orchestrator).

Modelling conventions:
* JS numbers are exact rationals (`ℚ`); `Math.round` is `jsRound`
  (round half toward positive infinity, as in JS).  Decimal literals of
  the source are written as exact fractions via `mkRat` (`1.1` is
  `mkRat 11 10`, `0.5` is `mkRat 1 2`, ...) so every definition
  evaluates by kernel reduction.
* The filesystem is an association list from paths to `FileData`.
  `FileData.fmt = some f` means the underlying `sharp` library decodes the
  file and probes container format `f`; `none` means decoding throws.
  Pixel contents are abstracted as the provenance `trace` of library
  operations applied, which stands in for the output byte signature.
* A path listed in `FSState.undeletable` makes `fs.unlinkSync` throw
  (e.g. a permission error); this models best-effort deletion.
* Throwing library calls are modelled by the `catch` branch the class
  wraps around them, so every operation is a total function returning
  the tagged result record the JS code returns.  sharp's `toFile`
  same-file rejection is modelled in `enhanceImage`, the one transformer
  the orchestrator can invoke with identical input and output paths; the
  other transformers are modelled on distinct input/output paths.
-/

/-- JS `Math.round`: round half toward positive infinity. -/
def jsRound (q : ℚ) : ℤ := ⌊q + mkRat 1 2⌋

/-- Provenance of one image-library operation applied to an image
(sharp's `modulate`/`gamma`/`linear`/`sharpen`/`median`/`blur`/`resize`,
Jimp's `color`/`brightness`/`contrast` adjustments). -/
inductive ImgOp
  | modulate (brightness saturation : ℚ) (hue : ℤ)
  | gammaOp (g : ℚ)
  | linear (a b : ℚ)
  | sharpen
  | median (size : ℚ)
  | blur (sigma : ℚ)
  | resize (width height : ℕ) (kernel : String)
  | colorRed (amount : ℚ)
  | colorBlue (amount : ℚ)
  | saturate (amount : ℚ)
  | brightnessOp (amount : ℚ)
  | contrastOp (amount : ℚ)
deriving DecidableEq, Repr

/-- Contents and metadata of one file on disk.  `fmt = none` means the file
is not decodable by the imaging library (sharp). -/
structure FileData where
  size : ℕ
  fmt : Option String
  width : ℕ
  height : ℕ
  trace : List ImgOp := []
deriving DecidableEq, Repr

/-- Filesystem state: files by path, plus the set of paths whose
`unlinkSync` throws (deletion failure, e.g. permissions). -/
structure FSState where
  files : List (String × FileData)
  undeletable : List String := []
deriving DecidableEq, Repr

def fsRead (fs : FSState) (p : String) : Option FileData :=
  fs.files.lookup p

/-- `toFile` semantics: (over)write the file at `p`. -/
def fsWrite (fs : FSState) (p : String) (d : FileData) : FSState :=
  { fs with files := (p, d) :: fs.files }

/-- `try { fs.unlinkSync(p) } catch {}`: remove the file unless unlink
throws, in which case the state is unchanged and the error is swallowed. -/
def tryUnlink (fs : FSState) (p : String) : FSState :=
  if p ∈ fs.undeletable then fs
  else { fs with files := fs.files.filter (fun e => !(e.1 == p)) }

def fsHas (fs : FSState) (p : String) : Bool :=
  (fsRead fs p).isSome

/-- Result record returned by the public operations
(`{success, message?, error?, originalSize?, newSize?, scaleFactor?, ...}`). -/
structure OpResult where
  success : Bool
  error : Option String := none
  message : Option String := none
  originalSize : Option String := none
  newSize : Option String := none
  scaleFactor : Option String := none
  thumbnailSize : Option String := none
  info : Option (ℕ × ℕ × String × ℕ) := none
deriving DecidableEq, Repr

/-- Result of `validateInputFile`: `{valid, error?}`. -/
structure ValidationResult where
  valid : Bool
  error : Option String := none
deriving DecidableEq, Repr

/-- `this.maxFileSize = 100 * 1024 * 1024`. -/
def maxFileSize : ℕ := 100 * 1024 * 1024

/-- `supportedSharpFormats` inside `validateInputFile`. -/
def supportedSharpFormats : List String :=
  ["jpeg", "png", "webp", "tiff", "gif", "avif", "heif"]

/-- `this.supportedFormats` (extension fallback list). -/
def supportedFormats : List String :=
  [".jpg", ".jpeg", ".png", ".webp", ".tiff", ".bmp", ".avif"]

/-- `toLowerCase`/`toUpperCase`, character by character (kernel-reducible
form of the string case maps). -/
def strToLower (s : String) : String := ⟨s.data.map Char.toLower⟩

def strToUpper (s : String) : String := ⟨s.data.map Char.toUpper⟩

/-- Node `path.extname` on a character list: the final `.`-suffix of the
basename, empty when the basename has no dot or only a leading dot. -/
def extnameChars (cs : List Char) : List Char :=
  let b := ((cs.reverse.takeWhile (fun c => c != '/')).reverse)
  let r := b.reverse
  let afterDot := r.takeWhile (fun c => c != '.')
  if afterDot.length = r.length then []
  else if afterDot.length + 1 = r.length then []
  else '.' :: afterDot.reverse

/-- Node `path.extname`. -/
def extname (s : String) : String := ⟨extnameChars s.data⟩

/-- Whether the regex `\.[^/.]+$` matches: the string ends in a dot
followed by a nonempty run of characters that are neither `.` nor `/`. -/
def hasDotExtChars (cs : List Char) : Bool :=
  let r := cs.reverse
  let rext := r.takeWhile (fun c => c != '.' && c != '/')
  !rext.isEmpty && ((r.drop rext.length).head? == some '.')

def hasDotExt (s : String) : Bool := hasDotExtChars s.data

/-- `outputPath.replace(/\.[^\/.]+$/, '_temp$&')` on a character list:
insert `_temp` before the final dot-extension; identity when the regex
does not match. -/
def tempPathChars (cs : List Char) : List Char :=
  let r := cs.reverse
  let rext := r.takeWhile (fun c => c != '.' && c != '/')
  let rest := r.drop rext.length
  if rest.head? = some '.' ∧ rext.isEmpty = false then
    rest.tail.reverse ++ "_temp.".data ++ rext.reverse
  else cs

/-- The intermediate-artifact path the orchestrator derives from
`outputPath`. -/
def tempPathOf (s : String) : String := ⟨tempPathChars s.data⟩

/-- `${w}x${h}` dimension string. -/
def sizeString (w h : ℕ) : String := toString w ++ "x" ++ toString h

/-- JS `toFixed(1)` for the nonnegative rationals used here (exact decimal
rounding; binary-float display artifacts are out of scope). -/
def toFixed1Str (q : ℚ) : String :=
  let n := (jsRound (q * 10)).toNat
  toString (n / 10) ++ "." ++ toString (n % 10)

/-- `validateInputFile(filePath)`: existence, size ceiling, then the
decoded format against `supportedSharpFormats`; extension fallback only
when decoding throws. -/
def validateInputFile (fs : FSState) (filePath : String) : ValidationResult :=
  match fsRead fs filePath with
  | none => { valid := false, error := some "File does not exist" }
  | some d =>
    if d.size > maxFileSize then
      { valid := false,
        error := some ("File too large. Maximum size: "
          ++ toString (maxFileSize / (1024 * 1024)) ++ "MB") }
    else
      match d.fmt with
      | some f =>
        if f ∈ supportedSharpFormats then { valid := true }
        else
          { valid := false,
            error := some ("Unsupported format: " ++ f
              ++ ". Supported formats: "
              ++ String.intercalate ", " supportedSharpFormats) }
      | none =>
        if strToLower (extname filePath) ∈ supportedFormats then { valid := true }
        else { valid := false, error := some "Unsupported format. Unable to process file." }

/-- `enhanceImage` option bag with its destructuring defaults. -/
structure EnhanceOptions where
  brightness : ℚ := 1
  contrast : ℚ := 1
  saturation : ℚ := 1
  sharpen : Bool := false
  denoise : Bool := false
  gamma : ℚ := 1
deriving DecidableEq, Repr

/-- `const validGamma = Math.max(1.0, Math.min(3.0, gamma))`. -/
def validGamma (g : ℚ) : ℚ := max 1 (min 3 g)

/-- `const validScale = Math.max(1.1, Math.min(8, scale))`. -/
def validScale (s : ℚ) : ℚ := max (mkRat 11 10) (min 8 s)

/-- `const validStrength = Math.max(1, Math.min(10, strength))`. -/
def validStrength (s : ℚ) : ℚ := max 1 (min 10 s)

/-- `Math.min(Math.round(dim * validScale), maxDim)`. -/
def scaledDim (d : ℕ) (s : ℚ) (maxD : ℕ) : ℕ :=
  min (jsRound ((d : ℚ) * s)).toNat maxD

/-- Output container chosen by the format switch shared by
`enhanceImage`, `upscaleImage` and `removeNoise`: `png` stays `png`,
`webp` stays `webp`, everything else is encoded as `jpeg`. -/
def encodeFormatFor (fmt : String) : String :=
  if fmt = "png" then "png" else if fmt = "webp" then "webp" else "jpeg"

/-- The sharp pipeline `enhanceImage` builds, in source order:
conditional `modulate`, conditional `gamma`, conditional `linear`
contrast remap, optional `sharpen`, optional `median(3)` denoise. -/
def enhanceTrace (o : EnhanceOptions) : List ImgOp :=
  (if o.brightness ≠ 1 ∨ o.contrast ≠ 1 ∨ o.saturation ≠ 1 then
      [ImgOp.modulate o.brightness o.saturation 0] else [])
  ++ (if validGamma o.gamma ≠ 1 then [ImgOp.gammaOp (validGamma o.gamma)] else [])
  ++ (if o.contrast ≠ 1 then
      [ImgOp.linear o.contrast (-(128 * o.contrast) + 128)] else [])
  ++ (if o.sharpen then [ImgOp.sharpen] else [])
  ++ (if o.denoise then [ImgOp.median 3] else [])

/-- `enhanceImage(inputPath, outputPath, options)`.  The decode errors of
`metadata()` come first (missing file, undecodable contents); then sharp's
`toFile` deterministically rejects writing to the very file being read
(`Cannot use same file for input and output`).  The orchestrator reaches
that rejection when the derived temp path equals the output path. -/
def enhanceImage (fs : FSState) (inputPath outputPath : String)
    (options : EnhanceOptions) : OpResult × FSState :=
  match fsRead fs inputPath with
  | none => ({ success := false, error := some "Input file is missing" }, fs)
  | some d =>
    match d.fmt with
    | none => ({ success := false, error := some "Input file contains unsupported image format" }, fs)
    | some f =>
      if outputPath = inputPath then
        ({ success := false,
           error := some "Cannot use same file for input and output" }, fs)
      else
        let out : FileData :=
          { size := d.size, fmt := some (encodeFormatFor f),
            width := d.width, height := d.height,
            trace := d.trace ++ enhanceTrace options }
        ({ success := true,
           message := some ("Enhanced image saved to " ++ outputPath) },
         fsWrite fs outputPath out)

/-- `upscaleImage` option bag with its destructuring defaults. -/
structure UpscaleOptions where
  scale : ℚ := 2
  algorithm : String := "lanczos3"
  maxWidth : ℕ := 8000
  maxHeight : ℕ := 8000
  enhanceAfterUpscale : Bool := true
deriving DecidableEq, Repr

/-- The sharp pipeline `upscaleImage` builds: `resize` to the computed
dimensions, then `sharpen` + `modulate` only when `enhanceAfterUpscale`. -/
def upscaleTrace (nw nh : ℕ) (o : UpscaleOptions) : List ImgOp :=
  [ImgOp.resize nw nh o.algorithm]
  ++ (if o.enhanceAfterUpscale then
        [ImgOp.sharpen, ImgOp.modulate (mkRat 51 50) (mkRat 21 20) 0] else [])

/-- `upscaleImage(inputPath, outputPath, options)`. -/
def upscaleImage (fs : FSState) (inputPath outputPath : String)
    (options : UpscaleOptions) : OpResult × FSState :=
  match fsRead fs inputPath with
  | none => ({ success := false, error := some "Input file is missing" }, fs)
  | some d =>
    match d.fmt with
    | none => ({ success := false, error := some "Input file contains unsupported image format" }, fs)
    | some f =>
      let vs := validScale options.scale
      let newWidth := scaledDim d.width vs options.maxWidth
      let newHeight := scaledDim d.height vs options.maxHeight
      let out : FileData :=
        { size := d.size, fmt := some (encodeFormatFor f),
          width := newWidth, height := newHeight,
          trace := d.trace ++ upscaleTrace newWidth newHeight options }
      ({ success := true,
         message := some ("Upscaled image from " ++ sizeString d.width d.height
           ++ " to " ++ sizeString newWidth newHeight),
         originalSize := some (sizeString d.width d.height),
         newSize := some (sizeString newWidth newHeight),
         scaleFactor := some (toFixed1Str vs ++ "x") },
       fsWrite fs outputPath out)

/-- Caller-supplied option bag for `restoreImage` (each field optional;
the method spreads it over `defaultOptions`). -/
structure RestoreOptions where
  brightness : Option ℚ := none
  contrast : Option ℚ := none
  saturation : Option ℚ := none
  sharpen : Option Bool := none
  denoise : Option Bool := none
  gamma : Option ℚ := none
  scale : Option ℚ := none
  autoColorCorrection : Option Bool := none
  preserveDetails : Option Bool := none
deriving DecidableEq, Repr

/-- `mergedOptions.scale` after `{...defaultOptions, ...options}`
(default scale 1.5). -/
def mergedScale (o : RestoreOptions) : ℚ := o.scale.getD (mkRat 3 2)

/-- The fields of `mergedOptions` that `enhanceImage` destructures
(restore defaults: brightness 1.1, contrast 1.2, saturation 1.1,
sharpen on, denoise on, gamma 1.1). -/
def restoreEnhanceOptions (o : RestoreOptions) : EnhanceOptions :=
  { brightness := o.brightness.getD (mkRat 11 10),
    contrast := o.contrast.getD (mkRat 6 5),
    saturation := o.saturation.getD (mkRat 11 10),
    sharpen := o.sharpen.getD true,
    denoise := o.denoise.getD true,
    gamma := o.gamma.getD (mkRat 11 10) }

/-- `restoreImage(inputPath, outputPath, options)`: validate, then the
two-stage (upscale into `tempPath` with enhancement-after-upscale off,
enhance into `outputPath`, unlink `tempPath` with errors swallowed) when
the merged scale exceeds 1, else a single direct enhance. -/
def restoreImage (fs : FSState) (inputPath outputPath : String)
    (options : RestoreOptions) : OpResult × FSState :=
  let validation := validateInputFile fs inputPath
  if validation.valid = false then
    ({ success := false, error := validation.error }, fs)
  else
    let tempPath := tempPathOf outputPath
    if mergedScale options > 1 then
      let upres := upscaleImage fs inputPath tempPath
        { scale := mergedScale options, enhanceAfterUpscale := false }
      if upres.1.success = false then upres
      else
        let enres := enhanceImage upres.2 tempPath outputPath
          (restoreEnhanceOptions options)
        let cleaned := tryUnlink enres.2 tempPath
        if enres.1.success then
          ({ enres.1 with
              message := some ("Restored and upscaled image ("
                ++ upres.1.scaleFactor.getD "" ++ ") saved to " ++ outputPath),
              originalSize := upres.1.originalSize,
              newSize := upres.1.newSize }, cleaned)
        else (enres.1, cleaned)
    else
      enhanceImage fs inputPath outputPath (restoreEnhanceOptions options)

/-- The sharp pipeline `removeNoise` builds from the clamped strength:
one `median(strength)` pass for strength ≤ 3; `median(3)` + `blur(0.5)` +
`sharpen` for strength ≤ 6; `median(3)` + `blur(0.8)` + `sharpen` +
`modulate(brightness 1.02)` above 6. -/
def noiseTrace (v : ℚ) : List ImgOp :=
  if v ≤ 3 then [ImgOp.median v]
  else if v ≤ 6 then [ImgOp.median 3, ImgOp.blur (mkRat 1 2), ImgOp.sharpen]
  else [ImgOp.median 3, ImgOp.blur (mkRat 4 5), ImgOp.sharpen, ImgOp.modulate (mkRat 51 50) 1 0]

/-- `removeNoise(inputPath, outputPath, strength = 3)`. -/
def removeNoise (fs : FSState) (inputPath outputPath : String)
    (strength : ℚ) : OpResult × FSState :=
  match fsRead fs inputPath with
  | none => ({ success := false, error := some "Input file is missing" }, fs)
  | some d =>
    match d.fmt with
    | none => ({ success := false, error := some "Input file contains unsupported image format" }, fs)
    | some f =>
      let v := validStrength strength
      let out : FileData :=
        { size := d.size, fmt := some (encodeFormatFor f),
          width := d.width, height := d.height,
          trace := d.trace ++ noiseTrace v }
      ({ success := true,
         message := some ("Noise removed (strength: " ++ toString v
           ++ ") and saved to " ++ outputPath) },
       fsWrite fs outputPath out)

/-- `getImageInfo(inputPath)`: sharp metadata plus `statSync` size, as
`(width, height, format, fileSize)` (channel/density/alpha/colorspace
metadata is carried straight from the library and not modelled). -/
def getImageInfo (fs : FSState) (inputPath : String) : OpResult :=
  match fsRead fs inputPath with
  | none => { success := false, error := some "Input file is missing" }
  | some d =>
    match d.fmt with
    | none => { success := false, error := some "Input file contains unsupported image format" }
    | some f => { success := true, info := some (d.width, d.height, f, d.size) }

/-- `adjustColorBalance` option bag with its destructuring defaults. -/
structure ColorOptions where
  temperature : ℚ := 0
  tint : ℚ := 0
  highlights : ℚ := 0
  shadows : ℚ := 0
  vibrance : ℚ := 0
deriving DecidableEq, Repr

/-- The Jimp pipeline `adjustColorBalance` builds: red/blue channel
shifts from temperature, `saturate` from vibrance, brightness/contrast
nudges from shadows/highlights. -/
def colorTrace (o : ColorOptions) : List ImgOp :=
  (if o.temperature ≠ 0 then
      [ImgOp.colorRed (if o.temperature > 0 then o.temperature * 10 else 0),
       ImgOp.colorBlue (if o.temperature < 0 then |o.temperature| * 10 else 0)]
    else [])
  ++ (if o.vibrance ≠ 0 then [ImgOp.saturate o.vibrance] else [])
  ++ (if o.highlights ≠ 0 ∨ o.shadows ≠ 0 then
      [ImgOp.brightnessOp (o.shadows / 100), ImgOp.contrastOp (o.highlights / 100)]
    else [])

/-- Container Jimp's `writeAsync` derives from the output extension. -/
def jimpContainer (outputPath : String) : String :=
  let e := strToLower (extname outputPath)
  if e = ".png" then "png"
  else if e = ".bmp" then "bmp"
  else if e = ".tiff" then "tiff"
  else "jpeg"

/-- `adjustColorBalance(inputPath, outputPath, options)` (Jimp's own
decodability is abstracted by the same decodability flag as sharp's). -/
def adjustColorBalance (fs : FSState) (inputPath outputPath : String)
    (options : ColorOptions) : OpResult × FSState :=
  match fsRead fs inputPath with
  | none => ({ success := false, error := some "Input file is missing" }, fs)
  | some d =>
    match d.fmt with
    | none => ({ success := false, error := some "Input file contains unsupported image format" }, fs)
    | some _ =>
      let out : FileData :=
        { size := d.size, fmt := some (jimpContainer outputPath),
          width := d.width, height := d.height,
          trace := d.trace ++ colorTrace options }
      ({ success := true,
         message := some ("Color balance adjusted and saved to " ++ outputPath) },
       fsWrite fs outputPath out)

/-- Dimensions after sharp's `fit: 'inside'` with `withoutEnlargement`
(aspect-preserving shrink into the bounding box; the library's exact
rounding is approximated with JS rounding, floored at 1). -/
def fitInside (w h bound : ℕ) : ℕ × ℕ :=
  if w ≤ bound ∧ h ≤ bound then (w, h)
  else if h ≤ w then (bound, max 1 (jsRound ((h : ℚ) * bound / w)).toNat)
  else (max 1 (jsRound ((w : ℚ) * bound / h)).toNat, bound)

/-- `createThumbnail(inputPath, outputPath, size = 300)`: inside-fit
resize without enlargement, always encoded as JPEG. -/
def createThumbnail (fs : FSState) (inputPath outputPath : String)
    (size : ℕ) : OpResult × FSState :=
  match fsRead fs inputPath with
  | none => ({ success := false, error := some "Input file is missing" }, fs)
  | some d =>
    match d.fmt with
    | none => ({ success := false, error := some "Input file contains unsupported image format" }, fs)
    | some _ =>
      let dims := fitInside d.width d.height size
      let out : FileData :=
        { size := d.size, fmt := some "jpeg",
          width := dims.1, height := dims.2, trace := d.trace }
      ({ success := true,
         message := some ("Thumbnail created at " ++ outputPath),
         originalSize := some (sizeString d.width d.height),
         thumbnailSize := some (sizeString size size ++ " (max)") },
       fsWrite fs outputPath out)

/-- The `switch (targetFormat.toLowerCase())` of `convertFormat`:
the container written for each accepted target, `none` for the
`default:` branch that throws `Unsupported target format`. -/
def convertTargetContainer (t : String) : Option String :=
  if t = "jpeg" ∨ t = "jpg" then some "jpeg"
  else if t = "png" then some "png"
  else if t = "webp" then some "webp"
  else if t = "avif" then some "avif"
  else none

/-- `convertFormat(inputPath, outputPath, targetFormat, quality = 95)`
(the quality number is passed straight to the codec and abstracted). -/
def convertFormat (fs : FSState) (inputPath outputPath targetFormat : String)
    (quality : ℚ) : OpResult × FSState :=
  match convertTargetContainer (strToLower targetFormat) with
  | none =>
    ({ success := false,
       error := some ("Unsupported target format: " ++ targetFormat) }, fs)
  | some c =>
    match fsRead fs inputPath with
    | none => ({ success := false, error := some "Input file is missing" }, fs)
    | some d =>
      match d.fmt with
      | none => ({ success := false, error := some "Input file contains unsupported image format" }, fs)
      | some _ =>
        ({ success := true,
           message := some ("Converted to " ++ strToUpper targetFormat
             ++ " and saved to " ++ outputPath) },
         fsWrite fs outputPath
           { size := d.size, fmt := some c, width := d.width,
             height := d.height, trace := d.trace })

/-- A result record is well-tagged: success carries no error, failure
carries an error message. -/
def wellTagged (r : OpResult) : Prop :=
  (r.success = true ∧ r.error = none) ∨ (r.success = false ∧ ∃ m, r.error = some m)

/-- A validation record is well-tagged in the same sense. -/
def wellTaggedValidation (v : ValidationResult) : Prop :=
  (v.valid = true ∧ v.error = none) ∨ (v.valid = false ∧ ∃ m, v.error = some m)

/-! Helper lemmas about the filesystem model. -/

lemma lookup_filter_self (l : List (String × FileData)) (p : String) :
    (l.filter (fun e => !(e.1 == p))).lookup p = none := by
  induction l with
  | nil => rfl
  | cons e t ih =>
    cases hb : (e.1 == p) with
    | true => simpa [List.filter, hb] using ih
    | false =>
      have hp : (p == e.1) = false := by
        have := beq_eq_false_iff_ne.mp hb
        exact beq_eq_false_iff_ne.mpr (Ne.symm this)
      simpa [List.filter, hb, List.lookup, hp] using ih

lemma lookup_filter_ne (l : List (String × FileData)) (p q : String)
    (h : q ≠ p) :
    (l.filter (fun e => !(e.1 == p))).lookup q = l.lookup q := by
  induction l with
  | nil => rfl
  | cons e t ih =>
    cases hb : (e.1 == p) with
    | true =>
      have hq : (q == e.1) = false :=
        beq_eq_false_iff_ne.mpr (fun hqe => h (hqe ▸ beq_iff_eq.mp hb))
      simpa [List.filter, hb, List.lookup, hq] using ih
    | false =>
      cases hq : (q == e.1) with
      | true => simp [List.filter, hb, List.lookup, hq]
      | false => simpa [List.filter, hb, List.lookup, hq] using ih

lemma fsRead_fsWrite_self (fs : FSState) (p : String) (d : FileData) :
    fsRead (fsWrite fs p d) p = some d := by
  simp [fsRead, fsWrite, List.lookup]

lemma fsRead_fsWrite_ne (fs : FSState) (p q : String) (d : FileData)
    (h : q ≠ p) : fsRead (fsWrite fs p d) q = fsRead fs q := by
  have : (q == p) = false := beq_eq_false_iff_ne.mpr h
  simp [fsRead, fsWrite, List.lookup, this]

lemma fsRead_tryUnlink_self (fs : FSState) (p : String)
    (h : p ∉ fs.undeletable) : fsRead (tryUnlink fs p) p = none := by
  simp [tryUnlink, h, fsRead, lookup_filter_self]

lemma fsRead_tryUnlink_ne (fs : FSState) (p q : String) (h : q ≠ p) :
    fsRead (tryUnlink fs p) q = fsRead fs q := by
  by_cases hu : p ∈ fs.undeletable
  · simp [tryUnlink, hu]
  · simp [tryUnlink, hu, fsRead, lookup_filter_ne _ _ _ h]

lemma fsWrite_undeletable (fs : FSState) (p : String) (d : FileData) :
    (fsWrite fs p d).undeletable = fs.undeletable := rfl

/-- C3: the effective gamma used by Enhance lies in [1, 3], the effective
scale used by Upscale lies in [1.1, 8], the effective denoise strength
lies in [1, 10]; out-of-range raw values are clamped to the nearest bound
(in-range values pass through unchanged), and no operation's
success/failure depends on the raw gamma/scale/strength value. -/
theorem param_clamping :
    (∀ g : ℚ, 1 ≤ validGamma g ∧ validGamma g ≤ 3
      ∧ (g < 1 → validGamma g = 1) ∧ (3 < g → validGamma g = 3)
      ∧ (1 ≤ g → g ≤ 3 → validGamma g = g))
    ∧ (∀ s : ℚ, mkRat 11 10 ≤ validScale s ∧ validScale s ≤ 8
      ∧ (s < mkRat 11 10 → validScale s = mkRat 11 10) ∧ (8 < s → validScale s = 8)
      ∧ (mkRat 11 10 ≤ s → s ≤ 8 → validScale s = s))
    ∧ (∀ t : ℚ, 1 ≤ validStrength t ∧ validStrength t ≤ 10
      ∧ (t < 1 → validStrength t = 1) ∧ (10 < t → validStrength t = 10)
      ∧ (1 ≤ t → t ≤ 10 → validStrength t = t))
    ∧ (∀ fs i o (opts : EnhanceOptions) (g g' : ℚ),
        (enhanceImage fs i o { opts with gamma := g }).1.success
          = (enhanceImage fs i o { opts with gamma := g' }).1.success)
    ∧ (∀ fs i o (opts : UpscaleOptions) (s s' : ℚ),
        (upscaleImage fs i o { opts with scale := s }).1.success
          = (upscaleImage fs i o { opts with scale := s' }).1.success)
    ∧ (∀ fs i o (t t' : ℚ),
        (removeNoise fs i o t).1.success = (removeNoise fs i o t').1.success) := by
  refine ⟨?_, ?_, ?_, ?_, ?_, ?_⟩
  · intro g
    refine ⟨le_max_left _ _, max_le (by norm_num) (min_le_left _ _), ?_, ?_, ?_⟩
    · intro h
      rw [validGamma, min_eq_right (le_of_lt (lt_of_lt_of_le h (by norm_num))),
        max_eq_left (le_of_lt h)]
    · intro h
      rw [validGamma, min_eq_left (le_of_lt h)]
      norm_num
    · intro h1 h2
      rw [validGamma, min_eq_right h2, max_eq_right h1]
  · intro s
    refine ⟨le_max_left _ _, max_le (by norm_num) (min_le_left _ _), ?_, ?_, ?_⟩
    · intro h
      have : (mkRat 11 10 : ℚ) ≤ 8 := by norm_num
      rw [validScale, min_eq_right (le_of_lt (lt_of_lt_of_le h this)),
        max_eq_left (le_of_lt h)]
    · intro h
      rw [validScale, min_eq_left (le_of_lt h), max_eq_right (by norm_num)]
    · intro h1 h2
      rw [validScale, min_eq_right h2, max_eq_right h1]
  · intro t
    refine ⟨le_max_left _ _, max_le (by norm_num) (min_le_left _ _), ?_, ?_, ?_⟩
    · intro h
      rw [validStrength, min_eq_right (le_of_lt (lt_of_lt_of_le h (by norm_num))),
        max_eq_left (le_of_lt h)]
    · intro h
      rw [validStrength, min_eq_left (le_of_lt h), max_eq_right (by norm_num)]
    · intro h1 h2
      rw [validStrength, min_eq_right h2, max_eq_right h1]
  · intro fs i o opts g g'
    cases h : fsRead fs i with
    | none => simp [enhanceImage, h]
    | some d =>
      cases hf : d.fmt with
      | none => simp [enhanceImage, h, hf]
      | some f => by_cases ho : o = i <;> simp [enhanceImage, h, hf, ho]
  · intro fs i o opts s s'
    cases h : fsRead fs i with
    | none => simp [upscaleImage, h]
    | some d =>
      cases hf : d.fmt with
      | none => simp [upscaleImage, h, hf]
      | some f => simp [upscaleImage, h, hf]
  · intro fs i o t t'
    cases h : fsRead fs i with
    | none => simp [removeNoise, h]
    | some d =>
      cases hf : d.fmt with
      | none => simp [removeNoise, h, hf]
      | some f => simp [removeNoise, h, hf]

/-- C3 witness: concrete clampings — gamma 5 clamps to 3, scale 0.5 clamps
to 1.1, strength 20 clamps to 10. -/
theorem param_clamping_witness :
    validGamma 5 = 3 ∧ validScale (mkRat 1 2) = mkRat 11 10
      ∧ validStrength 20 = 10 :=
  ⟨(param_clamping.1 5).2.2.2.1 (by norm_num),
   (param_clamping.2.1 (mkRat 1 2)).2.2.1 (by decide),
   (param_clamping.2.2.1 20).2.2.2.1 (by norm_num)⟩

/-- C4: for a readable, decodable source of width `w` and height `h` and
requested scale `s`, `upscaleImage` succeeds, computes target dimensions
`round(w * clamp(s))` by `round(h * clamp(s))` each capped at
`maxWidth`/`maxHeight` (8000 by default), writes the output at those
dimensions, and returns `originalSize`/`newSize` strings `"wxh"` and the
computed dimensions. -/
theorem upscale_dimensions (fs : FSState) (i o : String) (opt : UpscaleOptions)
    (d : FileData) (f : String)
    (hread : fsRead fs i = some d) (hfmt : d.fmt = some f) :
    (upscaleImage fs i o opt).1.success = true
    ∧ (upscaleImage fs i o opt).1.originalSize
        = some (sizeString d.width d.height)
    ∧ (upscaleImage fs i o opt).1.newSize
        = some (sizeString (scaledDim d.width (validScale opt.scale) opt.maxWidth)
            (scaledDim d.height (validScale opt.scale) opt.maxHeight))
    ∧ fsRead (upscaleImage fs i o opt).2 o
        = some { size := d.size, fmt := some (encodeFormatFor f),
                 width := scaledDim d.width (validScale opt.scale) opt.maxWidth,
                 height := scaledDim d.height (validScale opt.scale) opt.maxHeight,
                 trace := d.trace
                   ++ upscaleTrace (scaledDim d.width (validScale opt.scale) opt.maxWidth)
                        (scaledDim d.height (validScale opt.scale) opt.maxHeight) opt } := by
  refine ⟨?_, ?_, ?_, ?_⟩ <;>
    simp [upscaleImage, hread, hfmt, fsRead_fsWrite_self]

/-- C4 witness: a 400x300 source at scale 2 yields 800x600 with size
strings "400x300" and "800x600". -/
theorem upscale_dimensions_witness :
    (upscaleImage { files := [("in.jpg", { size := 1000, fmt := some "jpeg", width := 400, height := 300 })] }
        "in.jpg" "out.jpg" { scale := 2 }).1.originalSize = some "400x300"
    ∧ (upscaleImage { files := [("in.jpg", { size := 1000, fmt := some "jpeg", width := 400, height := 300 })] }
        "in.jpg" "out.jpg" { scale := 2 }).1.newSize = some "800x600" := by
  have hs : validScale 2 = 2 := by
    simp only [validScale, Rat.mkRat_eq_div]
    norm_num [min_def, max_def]
  have hw : scaledDim 400 (validScale 2) 8000 = 800 := by
    rw [hs, scaledDim]
    have h2 : jsRound ((400 : ℕ) * (2 : ℚ)) = 800 := by
      simp only [jsRound, Rat.mkRat_eq_div]
      norm_num
    rw [h2]
    decide
  have hh : scaledDim 300 (validScale 2) 8000 = 600 := by
    rw [hs, scaledDim]
    have h2 : jsRound ((300 : ℕ) * (2 : ℚ)) = 600 := by
      simp only [jsRound, Rat.mkRat_eq_div]
      norm_num
    rw [h2]
    decide
  have h := upscale_dimensions
    { files := [("in.jpg", { size := 1000, fmt := some "jpeg", width := 400, height := 300 })] }
    "in.jpg" "out.jpg" { scale := 2 }
    { size := 1000, fmt := some "jpeg", width := 400, height := 300 } "jpeg" rfl rfl
  refine ⟨?_, ?_⟩
  · rw [h.2.1]
    decide
  · rw [h.2.2.1, hw, hh]
    decide

/-- Concrete fixture: a decodable 400x300 TIFF source file. -/
def srcTiff : FileData := { size := 1000, fmt := some "tiff", width := 400, height := 300 }

/-- Concrete fixture: a filesystem holding only `in.tiff`. -/
def fsTiff : FSState := { files := [("in.tiff", srcTiff)] }

/-- Concrete fixture: a decodable 400x300 PNG source file. -/
def srcPng : FileData := { size := 1000, fmt := some "png", width := 400, height := 300 }

/-- Concrete fixture: a filesystem holding only `in.png`. -/
def fsPng : FSState := { files := [("in.png", srcPng)] }

/-- C5 counterexample: a decodable TIFF source is a supported format, but
`enhanceImage` encodes its output as JPEG, not in the source's TIFF
container, refuting "likewise for every other supported source
container". -/
theorem enhance_format_counterexample :
    "tiff" ∈ supportedSharpFormats
    ∧ (enhanceImage fsTiff "in.tiff" "out.tiff" {}).1.success = true
    ∧ (fsRead (enhanceImage fsTiff "in.tiff" "out.tiff" {}).2 "out.tiff").map FileData.fmt
        = some (some "jpeg")
    ∧ some (some "jpeg") ≠ some (some ("tiff" : String)) := by
  refine ⟨by decide, by decide, by decide, by decide⟩

/-- C5 amended: `enhanceImage` keeps PNG sources as PNG and WEBP sources
as WEBP; every other decodable source format (JPEG, TIFF, GIF, AVIF,
HEIF, ...) is encoded as JPEG, at the fixed high-quality encoder
settings.  (The output path must differ from the input path, since
sharp's `toFile` rejects writing to the file being read.) -/
theorem enhance_output_format (fs : FSState) (i o : String)
    (opts : EnhanceOptions) (d : FileData) (f : String)
    (hread : fsRead fs i = some d) (hfmt : d.fmt = some f)
    (hio : o ≠ i) :
    (enhanceImage fs i o opts).1.success = true
    ∧ (fsRead (enhanceImage fs i o opts).2 o).map FileData.fmt
        = some (some (encodeFormatFor f))
    ∧ (f = "png" → encodeFormatFor f = "png")
    ∧ (f = "webp" → encodeFormatFor f = "webp")
    ∧ (f ≠ "png" → f ≠ "webp" → encodeFormatFor f = "jpeg") := by
  refine ⟨?_, ?_, ?_, ?_, ?_⟩
  · simp [enhanceImage, hread, hfmt, hio]
  · simp [enhanceImage, hread, hfmt, hio, fsRead_fsWrite_self]
  · intro h
    simp [encodeFormatFor, h]
  · intro h
    simp [encodeFormatFor, h]
  · intro h1 h2
    simp [encodeFormatFor, h1, h2]

/-- C5 witness (amended): a PNG source is written back as PNG. -/
theorem enhance_output_format_witness :
    (fsRead (enhanceImage fsPng "in.png" "out.png" {}).2 "out.png").map FileData.fmt
      = some (some "png") := by
  have h := enhance_output_format fsPng "in.png" "out.png" {} srcPng "png" rfl rfl
    (by decide)
  rw [h.2.1]
  decide

/-- C6: `validateInputFile` is invalid for a non-existent path and for a
file above the 100 MiB ceiling; otherwise validity is decided by the
decoded format against {jpeg, png, webp, tiff, gif, avif, heif} (the
file's extension does not enter that decision), and the extension
fallback list is consulted exactly when decoding fails. -/
theorem validate_input_file_spec (fs : FSState) (p : String) :
    (fsRead fs p = none →
      validateInputFile fs p = { valid := false, error := some "File does not exist" })
    ∧ (∀ d : FileData, fsRead fs p = some d → d.size > maxFileSize →
        (validateInputFile fs p).valid = false)
    ∧ (∀ (d : FileData) (f : String), fsRead fs p = some d →
        d.size ≤ maxFileSize → d.fmt = some f →
        ((validateInputFile fs p).valid = true ↔ f ∈ supportedSharpFormats))
    ∧ (∀ d : FileData, fsRead fs p = some d → d.size ≤ maxFileSize →
        d.fmt = none →
        ((validateInputFile fs p).valid = true
          ↔ strToLower (extname p) ∈ supportedFormats)) := by
  refine ⟨?_, ?_, ?_, ?_⟩
  · intro h
    simp [validateInputFile, h]
  · intro d hread hsize
    simp [validateInputFile, hread, hsize]
  · intro d f hread hsize hfmt
    have hns : ¬(d.size > maxFileSize) := not_lt.mpr hsize
    by_cases hm : f ∈ supportedSharpFormats
    · simp [validateInputFile, hread, hns, hfmt, hm]
    · simp [validateInputFile, hread, hns, hfmt, hm]
  · intro d hread hsize hfmt
    have hns : ¬(d.size > maxFileSize) := not_lt.mpr hsize
    by_cases hm : strToLower (extname p) ∈ supportedFormats
    · simp [validateInputFile, hread, hns, hfmt, hm]
    · simp [validateInputFile, hread, hns, hfmt, hm]

/-- Concrete fixture: a decodable JPEG behind an unrecognized `.data`
extension. -/
def srcData : FileData := { size := 1000, fmt := some "jpeg", width := 4, height := 3 }

/-- Concrete fixture: a filesystem holding only `photo.data`. -/
def fsData : FSState := { files := [("photo.data", srcData)] }

/-- C6 witness: a non-existent path is invalid, and an existing decodable
file whose `.data` extension is outside the extension list is still
valid. -/
theorem validate_input_file_witness :
    validateInputFile fsData "missing.jpg"
        = { valid := false, error := some "File does not exist" }
    ∧ strToLower (extname "photo.data") ∉ supportedFormats
    ∧ (validateInputFile fsData "photo.data").valid = true := by
  refine ⟨(validate_input_file_spec fsData "missing.jpg").1 rfl, by decide, ?_⟩
  exact ((validate_input_file_spec fsData "photo.data").2.2.1 srcData "jpeg"
    rfl (by decide) rfl).mpr (by decide)

/-- C7: `convertFormat` fails with an unsupported-target-format error for
every target whose lowercasing is outside the accepted spellings
{jpeg, jpg, png, webp, avif} of the four containers {JPEG, PNG, WEBP,
AVIF}; for every accepted target (and readable, decodable input) it
succeeds and writes the requested container. -/
theorem convert_format_targets (fs : FSState) (i o t : String) (q : ℚ) :
    (convertTargetContainer (strToLower t) = none →
      convertFormat fs i o t q
        = ({ success := false,
             error := some ("Unsupported target format: " ++ t) }, fs))
    ∧ (∀ c, convertTargetContainer (strToLower t) = some c →
        ∀ (d : FileData) (f : String), fsRead fs i = some d → d.fmt = some f →
          (convertFormat fs i o t q).1.success = true
          ∧ (fsRead (convertFormat fs i o t q).2 o).map FileData.fmt
              = some (some c))
    ∧ (∀ c, convertTargetContainer (strToLower t) = some c →
        c = "jpeg" ∨ c = "png" ∨ c = "webp" ∨ c = "avif")
    ∧ (convertTargetContainer (strToLower t) = none
        ↔ strToLower t ∉ (["jpeg", "jpg", "png", "webp", "avif"] : List String)) := by
  refine ⟨?_, ?_, ?_, ?_⟩
  · intro h
    simp [convertFormat, h]
  · intro c hc d f hread hfmt
    constructor
    · simp [convertFormat, hc, hread, hfmt]
    · simp [convertFormat, hc, hread, hfmt, fsRead_fsWrite_self]
  · intro c hc
    rw [convertTargetContainer] at hc
    split_ifs at hc with h1 h2 h3 h4
    · exact Or.inl (Option.some.inj hc).symm
    · exact Or.inr (Or.inl (Option.some.inj hc).symm)
    · exact Or.inr (Or.inr (Or.inl (Option.some.inj hc).symm))
    · exact Or.inr (Or.inr (Or.inr (Option.some.inj hc).symm))
  · constructor
    · intro h hm
      simp only [List.mem_cons, List.mem_nil_iff, or_false] at hm
      rcases hm with h1 | h1 | h1 | h1 | h1 <;>
        simp [convertTargetContainer, h1] at h
    · intro hnm
      simp only [List.mem_cons, List.mem_nil_iff, or_false] at hnm
      push_neg at hnm
      obtain ⟨n1, n2, n3, n4, n5⟩ := hnm
      rw [convertTargetContainer]
      simp [n1, n2, n3, n4, n5]

/-- C7 witness: target "bmp" fails with the unsupported-target error;
target "webp" succeeds and the output container is WEBP. -/
theorem convert_format_targets_witness :
    convertFormat fsPng "in.png" "out.webp" "bmp" 95
        = ({ success := false,
             error := some "Unsupported target format: bmp" }, fsPng)
    ∧ (convertFormat fsPng "in.png" "out.webp" "webp" 95).1.success = true
    ∧ (fsRead (convertFormat fsPng "in.png" "out.webp" "webp" 95).2 "out.webp").map FileData.fmt
        = some (some "webp") := by
  refine ⟨(convert_format_targets fsPng "in.png" "out.webp" "bmp" 95).1 rfl, ?_, ?_⟩
  · exact ((convert_format_targets fsPng "in.png" "out.webp" "webp" 95).2.1
      "webp" rfl srcPng "png" rfl rfl).1
  · exact ((convert_format_targets fsPng "in.png" "out.webp" "webp" 95).2.1
      "webp" rfl srcPng "png" rfl rfl).2

/-- C8: `removeNoise` succeeds on decodable input and records exactly the
tier pipeline of the clamped strength in the output: one median pass
sized to the strength for strength ≤ 3; median(3) + blur(0.5) + sharpen
(no brightness modulation) for 3 < strength ≤ 6; median(3) + blur(0.8) +
sharpen + brightness lift 1.02 for strength > 6 — and the three tier
pipelines are pairwise distinct. -/
theorem remove_noise_tiers (fs : FSState) (i o : String) (s : ℚ)
    (d : FileData) (f : String)
    (hread : fsRead fs i = some d) (hfmt : d.fmt = some f) :
    (removeNoise fs i o s).1.success = true
    ∧ (fsRead (removeNoise fs i o s).2 o).map FileData.trace
        = some (d.trace ++ noiseTrace (validStrength s))
    ∧ (validStrength s ≤ 3 →
        noiseTrace (validStrength s) = [ImgOp.median (validStrength s)])
    ∧ (3 < validStrength s → validStrength s ≤ 6 →
        noiseTrace (validStrength s)
            = [ImgOp.median 3, ImgOp.blur (mkRat 1 2), ImgOp.sharpen]
          ∧ ∀ b sat hu, ImgOp.modulate b sat hu ∉ noiseTrace (validStrength s))
    ∧ (6 < validStrength s →
        noiseTrace (validStrength s)
            = [ImgOp.median 3, ImgOp.blur (mkRat 4 5), ImgOp.sharpen,
               ImgOp.modulate (mkRat 51 50) 1 0]
          ∧ (1 : ℚ) < mkRat 51 50)
    ∧ (∀ v1 v2 v3 : ℚ, v1 ≤ 3 → 3 < v2 → v2 ≤ 6 → 6 < v3 →
        noiseTrace v1 ≠ noiseTrace v2 ∧ noiseTrace v1 ≠ noiseTrace v3
          ∧ noiseTrace v2 ≠ noiseTrace v3) := by
  refine ⟨?_, ?_, ?_, ?_, ?_, ?_⟩
  · simp [removeNoise, hread, hfmt]
  · simp [removeNoise, hread, hfmt, fsRead_fsWrite_self]
  · intro h
    simp [noiseTrace, h]
  · intro h1 h2
    refine ⟨by simp [noiseTrace, not_le.mpr h1, h2], ?_⟩
    intro b sat hu
    simp [noiseTrace, not_le.mpr h1, h2]
  · intro h
    have n3 : ¬ validStrength s ≤ 3 :=
      not_le.mpr (lt_trans (by norm_num) h)
    have n6 : ¬ validStrength s ≤ 6 := not_le.mpr h
    exact ⟨by simp [noiseTrace, n3, n6], by decide⟩
  · intro v1 v2 v3 h1 h2 h3 h4
    have e1 : noiseTrace v1 = [ImgOp.median v1] := by simp [noiseTrace, h1]
    have e2 : noiseTrace v2
        = [ImgOp.median 3, ImgOp.blur (mkRat 1 2), ImgOp.sharpen] := by
      simp [noiseTrace, not_le.mpr h2, h3]
    have e3 : noiseTrace v3
        = [ImgOp.median 3, ImgOp.blur (mkRat 4 5), ImgOp.sharpen,
           ImgOp.modulate (mkRat 51 50) 1 0] := by
      have n3 : ¬ v3 ≤ 3 := not_le.mpr (lt_trans (by norm_num) h4)
      simp [noiseTrace, n3, not_le.mpr h4]
    rw [e1, e2, e3]
    refine ⟨by simp, by simp, by simp⟩

/-- C8 witness: strengths 2, 5 and 8 produce the three distinct tier
pipelines on a concrete source. -/
theorem remove_noise_tiers_witness :
    (fsRead (removeNoise fsPng "in.png" "out.png" 2).2 "out.png").map FileData.trace
        = some [ImgOp.median 2]
    ∧ (fsRead (removeNoise fsPng "in.png" "out.png" 5).2 "out.png").map FileData.trace
        = some [ImgOp.median 3, ImgOp.blur (mkRat 1 2), ImgOp.sharpen]
    ∧ (fsRead (removeNoise fsPng "in.png" "out.png" 8).2 "out.png").map FileData.trace
        = some [ImgOp.median 3, ImgOp.blur (mkRat 4 5), ImgOp.sharpen,
                ImgOp.modulate (mkRat 51 50) 1 0] := by
  have h2 := remove_noise_tiers fsPng "in.png" "out.png" 2 srcPng "png" rfl rfl
  have h5 := remove_noise_tiers fsPng "in.png" "out.png" 5 srcPng "png" rfl rfl
  have h8 := remove_noise_tiers fsPng "in.png" "out.png" 8 srcPng "png" rfl rfl
  refine ⟨?_, ?_, ?_⟩
  · rw [h2.2.1]
    decide
  · rw [h5.2.1]
    decide
  · rw [h8.2.1]
    decide

/-- C9: every public core operation returns a tagged result for every
input and state: success carries no error field, and every failure is
uniformly `{success := false, error := some message}` (the model is a
total function built from the operations' try/catch bodies, so no
exception escapes the core boundary). -/
theorem core_results_tagged :
    (∀ fs p, wellTaggedValidation (validateInputFile fs p))
    ∧ (∀ fs p, wellTagged (getImageInfo fs p))
    ∧ (∀ fs i o opts, wellTagged (restoreImage fs i o opts).1)
    ∧ (∀ fs i o opts, wellTagged (enhanceImage fs i o opts).1)
    ∧ (∀ fs i o opts, wellTagged (upscaleImage fs i o opts).1)
    ∧ (∀ fs i o s, wellTagged (removeNoise fs i o s).1)
    ∧ (∀ fs i o opts, wellTagged (adjustColorBalance fs i o opts).1)
    ∧ (∀ fs i o t q, wellTagged (convertFormat fs i o t q).1)
    ∧ (∀ fs i o n, wellTagged (createThumbnail fs i o n).1) := by
  have hval : ∀ fs p, wellTaggedValidation (validateInputFile fs p) := by
    intro fs p
    rcases h : fsRead fs p with _ | d
    · simp [validateInputFile, h, wellTaggedValidation]
    · by_cases hs : d.size > maxFileSize
      · simp [validateInputFile, h, hs, wellTaggedValidation]
      · rcases hf : d.fmt with _ | f
        · by_cases hm : strToLower (extname p) ∈ supportedFormats <;>
            simp [validateInputFile, h, hs, hf, hm, wellTaggedValidation]
        · by_cases hm : f ∈ supportedSharpFormats <;>
            simp [validateInputFile, h, hs, hf, hm, wellTaggedValidation]
  have henh : ∀ fs i o opts, wellTagged (enhanceImage fs i o opts).1 := by
    intro fs i o opts
    rcases h : fsRead fs i with _ | d
    · simp [enhanceImage, h, wellTagged]
    · rcases hf : d.fmt with _ | f
      · simp [enhanceImage, h, hf, wellTagged]
      · by_cases ho : o = i <;> simp [enhanceImage, h, hf, ho, wellTagged]
  have hup : ∀ fs i o opts, wellTagged (upscaleImage fs i o opts).1 := by
    intro fs i o opts
    rcases h : fsRead fs i with _ | d
    · simp [upscaleImage, h, wellTagged]
    · rcases hf : d.fmt with _ | f <;> simp [upscaleImage, h, hf, wellTagged]
  refine ⟨hval, ?_, ?_, henh, hup, ?_, ?_, ?_, ?_⟩
  · intro fs p
    rcases h : fsRead fs p with _ | d
    · simp [getImageInfo, h, wellTagged]
    · rcases hf : d.fmt with _ | f <;> simp [getImageInfo, h, hf, wellTagged]
  · intro fs i o opts
    rw [restoreImage]
    by_cases hv : (validateInputFile fs i).valid = false
    · rcases hval fs i with ⟨ht, _⟩ | ⟨_, m, hm⟩
      · rw [hv] at ht
        cases ht
      · simp [hv, wellTagged, hm]
    · simp only [hv, if_false]
      by_cases hsc : mergedScale opts > 1
      · simp only [hsc, if_true]
        by_cases hus :
            (upscaleImage fs i (tempPathOf o)
              { scale := mergedScale opts, enhanceAfterUpscale := false }).1.success = false
        · simpa [hus] using hup fs i (tempPathOf o)
            { scale := mergedScale opts, enhanceAfterUpscale := false }
        · simp only [hus, if_false]
          rcases henh (upscaleImage fs i (tempPathOf o)
              { scale := mergedScale opts, enhanceAfterUpscale := false }).2
              (tempPathOf o) o (restoreEnhanceOptions opts) with ⟨hes, hee⟩ | ⟨hes, m, hm⟩
          · simp [hes, hee, wellTagged]
          · simp [hes, hm, wellTagged]
      · simp only [hsc, if_false]
        exact henh fs i o (restoreEnhanceOptions opts)
  · intro fs i o s
    rcases h : fsRead fs i with _ | d
    · simp [removeNoise, h, wellTagged]
    · rcases hf : d.fmt with _ | f <;> simp [removeNoise, h, hf, wellTagged]
  · intro fs i o opts
    rcases h : fsRead fs i with _ | d
    · simp [adjustColorBalance, h, wellTagged]
    · rcases hf : d.fmt with _ | f <;> simp [adjustColorBalance, h, hf, wellTagged]
  · intro fs i o t q
    rcases hc : convertTargetContainer (strToLower t) with _ | c
    · simp [convertFormat, hc, wellTagged]
    · rcases h : fsRead fs i with _ | d
      · simp [convertFormat, hc, h, wellTagged]
      · rcases hf : d.fmt with _ | f <;> simp [convertFormat, hc, h, hf, wellTagged]
  · intro fs i o n
    rcases h : fsRead fs i with _ | d
    · simp [createThumbnail, h, wellTagged]
    · rcases hf : d.fmt with _ | f <;> simp [createThumbnail, h, hf, wellTagged]

/-! Helper lemmas: operation results depend only on the file table, not
on which paths would fail to unlink. -/

lemma enhance_files_only (fs fs' : FSState) (h : fs.files = fs'.files)
    (i o : String) (opts : EnhanceOptions) :
    (enhanceImage fs i o opts).1 = (enhanceImage fs' i o opts).1
    ∧ (enhanceImage fs i o opts).2.files = (enhanceImage fs' i o opts).2.files := by
  have hr : fsRead fs i = fsRead fs' i := by rw [fsRead, fsRead, h]
  rcases hd : fsRead fs' i with _ | d
  · have hd' : fsRead fs i = none := by rw [hr, hd]
    simp [enhanceImage, hd, hd', h]
  · have hd' : fsRead fs i = some d := by rw [hr, hd]
    rcases hf : d.fmt with _ | f
    · simp [enhanceImage, hd, hd', hf, fsWrite, h]
    · by_cases ho : o = i <;> simp [enhanceImage, hd, hd', hf, ho, fsWrite, h]

lemma upscale_files_only (fs fs' : FSState) (h : fs.files = fs'.files)
    (i o : String) (opts : UpscaleOptions) :
    (upscaleImage fs i o opts).1 = (upscaleImage fs' i o opts).1
    ∧ (upscaleImage fs i o opts).2.files = (upscaleImage fs' i o opts).2.files := by
  have hr : fsRead fs i = fsRead fs' i := by rw [fsRead, fsRead, h]
  rcases hd : fsRead fs' i with _ | d
  · have hd' : fsRead fs i = none := by rw [hr, hd]
    simp [upscaleImage, hd, hd', h]
  · have hd' : fsRead fs i = some d := by rw [hr, hd]
    rcases hf : d.fmt with _ | f <;>
      simp [upscaleImage, hd, hd', hf, fsWrite, h]

lemma validate_files_only (fs fs' : FSState) (h : fs.files = fs'.files)
    (p : String) : validateInputFile fs p = validateInputFile fs' p := by
  have hr : fsRead fs p = fsRead fs' p := by rw [fsRead, fsRead, h]
  rw [validateInputFile, validateInputFile, hr]

lemma restore_result_files_only (files : List (String × FileData))
    (l l' : List String) (i o : String) (opts : RestoreOptions) :
    (restoreImage ⟨files, l⟩ i o opts).1 = (restoreImage ⟨files, l'⟩ i o opts).1 := by
  have hvv := validate_files_only ⟨files, l⟩ ⟨files, l'⟩ rfl i
  by_cases hv : (validateInputFile ⟨files, l'⟩ i).valid = false
  · simp [restoreImage, hvv, hv]
  · by_cases hsc : mergedScale opts > 1
    · rcases hd : files.lookup i with _ | d
      · simp [restoreImage, hvv, hv, hsc, upscaleImage, fsRead, hd]
      · rcases hf : d.fmt with _ | f
        · simp [restoreImage, hvv, hv, hsc, upscaleImage, fsRead, hd, hf]
        · by_cases hoo : o = tempPathOf o
          · simp [restoreImage, hvv, hv, hsc, upscaleImage, enhanceImage,
              fsRead, fsWrite, hd, hf, List.lookup, hoo.symm]
          · simp [restoreImage, hvv, hv, hsc, upscaleImage, enhanceImage,
              fsRead, fsWrite, hd, hf, List.lookup, hoo]
    · simp only [restoreImage, hvv]
      simp only [hv, if_false, hsc, if_false]
      exact (enhance_files_only ⟨files, l⟩ ⟨files, l'⟩ rfl i o
        (restoreEnhanceOptions opts)).1

/-- Concrete fixture: a decodable 400x300 JPEG source file. -/
def srcJpeg : FileData := { size := 1000, fmt := some "jpeg", width := 400, height := 300 }

/-- C1: in the two-stage plan (merged scale > 1), no file remains at the
intermediate-artifact path when the call returns — on two-stage success,
on Enhance-stage failure, and on Upscale (stage 1) failure alike (on that
path no artifact was ever produced, so nothing remains) — provided the
artifact is owned by this invocation (no pre-existing file at the temp
path) and the unlink itself can succeed; and the returned result is
identical whichever paths fail to unlink, so a failure to delete is never
surfaced in the result. -/
theorem restore_temp_cleanup (files : List (String × FileData))
    (undel l l' : List String) (i o : String) (opts : RestoreOptions)
    (h1 : fsRead ⟨files, undel⟩ (tempPathOf o) = none)
    (h2 : tempPathOf o ∉ undel)
    (h3 : mergedScale opts > 1) :
    fsRead (restoreImage ⟨files, undel⟩ i o opts).2 (tempPathOf o) = none
    ∧ (restoreImage ⟨files, l⟩ i o opts).1 = (restoreImage ⟨files, l'⟩ i o opts).1 := by
  refine ⟨?_, restore_result_files_only files l l' i o opts⟩
  by_cases hv : (validateInputFile ⟨files, undel⟩ i).valid = false
  · simp only [restoreImage, hv, if_true]
    exact h1
  · rcases hd : files.lookup i with _ | d
    · simp only [restoreImage, hv, if_false, h3, if_true]
      simpa [upscaleImage, fsRead, hd] using h1
    · rcases hf : d.fmt with _ | f
      · simp only [restoreImage, hv, if_false, h3, if_true]
        simpa [upscaleImage, fsRead, hd, hf] using h1
      · by_cases hoo : o = tempPathOf o
        · have h2o : o ∉ undel := by
            rw [hoo]
            exact h2
          simp [restoreImage, hv, h3, upscaleImage, enhanceImage, fsRead, fsWrite,
            hd, hf, List.lookup, tryUnlink, h2o, lookup_filter_self, hoo.symm]
        · have hbe : (tempPathOf o == o) = false :=
            beq_eq_false_iff_ne.mpr (fun hh => hoo hh.symm)
          simp [restoreImage, hv, h3, upscaleImage, enhanceImage, fsRead, fsWrite,
            hd, hf, List.lookup, tryUnlink, h2, lookup_filter_self, hoo, hbe]

/-- C1 witness: a concrete two-stage run deletes the temp artifact, and
the result record does not change when some unrelated path (or any path)
is undeletable. -/
theorem restore_temp_cleanup_witness :
    fsRead (restoreImage ⟨[("in.jpg", srcJpeg)], ["locked.dat"]⟩ "in.jpg" "out.jpg" {}).2
        (tempPathOf "out.jpg") = none
    ∧ (restoreImage ⟨[("in.jpg", srcJpeg)], ["x"]⟩ "in.jpg" "out.jpg" {}).1
        = (restoreImage ⟨[("in.jpg", srcJpeg)], []⟩ "in.jpg" "out.jpg" {}).1 :=
  restore_temp_cleanup [("in.jpg", srcJpeg)] ["locked.dat"] ["x"] [] "in.jpg" "out.jpg" {}
    (by decide) (by decide) (by decide)

/-- C2: `restoreImage` runs the two-stage upscale-then-enhance pipeline
exactly when the merged scale exceeds 1.  For scale ≤ 1 (with valid
input) the call is literally the direct Enhance from source to output,
and no path other than the output is ever touched — in particular no
intermediate artifact exists afterwards, in success or failure.  For
scale > 1 (on a readable, decodable, supported source) the output is the
upscaled-then-enhanced file whose pipeline trace is the bare resize
(enhancement-after-upscale disabled) followed by the enhance stage. -/
theorem restore_plan_branch (fs : FSState) (i o : String) (opts : RestoreOptions) :
    (mergedScale opts ≤ 1 → (validateInputFile fs i).valid = true →
      restoreImage fs i o opts = enhanceImage fs i o (restoreEnhanceOptions opts))
    ∧ (mergedScale opts ≤ 1 → ∀ q : String, q ≠ o →
        fsRead (restoreImage fs i o opts).2 q = fsRead fs q)
    ∧ (∀ (d : FileData) (f : String), mergedScale opts > 1 →
        fsRead fs i = some d → d.fmt = some f → d.size ≤ maxFileSize →
        f ∈ supportedSharpFormats → tempPathOf o ≠ o →
        (restoreImage fs i o opts).1.success = true
        ∧ fsRead (restoreImage fs i o opts).2 o
            = some { size := d.size,
                     fmt := some (encodeFormatFor (encodeFormatFor f)),
                     width := scaledDim d.width (validScale (mergedScale opts)) 8000,
                     height := scaledDim d.height (validScale (mergedScale opts)) 8000,
                     trace := d.trace
                       ++ [ImgOp.resize (scaledDim d.width (validScale (mergedScale opts)) 8000)
                             (scaledDim d.height (validScale (mergedScale opts)) 8000) "lanczos3"]
                       ++ enhanceTrace (restoreEnhanceOptions opts) }) := by
  refine ⟨?_, ?_, ?_⟩
  · intro hs hv
    have hv' : ¬((validateInputFile fs i).valid = false) := by simp [hv]
    have hns : ¬(mergedScale opts > 1) := not_lt.mpr hs
    simp [restoreImage, hv', hns]
  · intro hs q hq
    have hns : ¬(mergedScale opts > 1) := not_lt.mpr hs
    by_cases hv : (validateInputFile fs i).valid = false
    · simp [restoreImage, hv]
    · simp only [restoreImage, hv, if_false, hns]
      rcases hd : fsRead fs i with _ | d
      · simp [enhanceImage, hd]
      · rcases hf : d.fmt with _ | f
        · simp [enhanceImage, hd, hf]
        · by_cases ho : o = i <;>
            simp [enhanceImage, hd, hf, ho, fsRead_fsWrite_ne _ _ _ _ hq]
  · intro d f hsc hread hfmt hsize hsup hto
    have hv' : ¬((validateInputFile fs i).valid = false) := by
      simp [validateInputFile, hread, not_lt.mpr hsize, hfmt, hsup]
    have hot : ¬(o = tempPathOf o) := fun hh => hto hh.symm
    constructor
    · simp [restoreImage, hv', hsc, upscaleImage, enhanceImage, hread, hfmt,
        hot, fsRead_fsWrite_self]
    · simp [restoreImage, hv', hsc, upscaleImage, enhanceImage, hread, hfmt,
        hot, fsRead_fsWrite_self, fsRead_tryUnlink_ne _ _ _ (Ne.symm hto),
        fsRead_fsWrite_ne, upscaleTrace]

/-- C2 witness: scale 0.9 runs the direct Enhance (the whole call equals
`enhanceImage`), and a default two-stage run (scale 1.5) on a concrete
source succeeds. -/
theorem restore_plan_branch_witness :
    restoreImage ⟨[("in.jpg", srcJpeg)], []⟩ "in.jpg" "out.jpg"
        { scale := some (mkRat 9 10) }
      = enhanceImage ⟨[("in.jpg", srcJpeg)], []⟩ "in.jpg" "out.jpg"
          (restoreEnhanceOptions { scale := some (mkRat 9 10) })
    ∧ (restoreImage ⟨[("in.jpg", srcJpeg)], []⟩ "in.jpg" "out.jpg" {}).1.success = true := by
  constructor
  · exact (restore_plan_branch ⟨[("in.jpg", srcJpeg)], []⟩ "in.jpg" "out.jpg"
      { scale := some (mkRat 9 10) }).1 (by decide) (by decide)
  · exact ((restore_plan_branch ⟨[("in.jpg", srcJpeg)], []⟩ "in.jpg" "out.jpg" {}).2.2
      srcJpeg "jpeg" (by decide) rfl rfl (by decide) (by decide) (by decide)).1

/-! Helper lemmas about the temp-path derivation. -/

lemma tempPathChars_length (cs : List Char) (h : hasDotExtChars cs = true) :
    (tempPathChars cs).length = cs.length + 5 := by
  rw [hasDotExtChars] at h
  rw [Bool.and_eq_true, Bool.not_eq_true'] at h
  obtain ⟨h1, h2⟩ := h
  rw [beq_iff_eq] at h2
  rw [tempPathChars]
  rw [if_pos ⟨h2, h1⟩]
  have hle : ((cs.reverse.takeWhile (fun c => c != '.' && c != '/')).length)
      ≤ cs.reverse.length :=
    (List.takeWhile_sublist _).length_le
  have hdrop : ((cs.reverse.drop
      ((cs.reverse.takeWhile (fun c => c != '.' && c != '/')).length)).length)
      = cs.reverse.length
        - ((cs.reverse.takeWhile (fun c => c != '.' && c != '/')).length) :=
    List.length_drop _ _
  have hne : (cs.reverse.drop
      ((cs.reverse.takeWhile (fun c => c != '.' && c != '/')).length)) ≠ [] := by
    intro hh
    rw [hh] at h2
    cases h2
  have hpos : 0 < (cs.reverse.drop
      ((cs.reverse.takeWhile (fun c => c != '.' && c != '/')).length)).length :=
    List.length_pos.mpr hne
  have htail : ((cs.reverse.drop
      ((cs.reverse.takeWhile (fun c => c != '.' && c != '/')).length)).tail.length)
      = (cs.reverse.drop
        ((cs.reverse.takeWhile (fun c => c != '.' && c != '/')).length)).length - 1 :=
    List.length_tail _
  have hsix : ("_temp.".data).length = 6 := rfl
  simp only [List.length_append, List.length_reverse, hsix, htail, hdrop,
    List.length_reverse] at *
  omega

lemma tempPathChars_of_not (cs : List Char) (h : hasDotExtChars cs = false) :
    tempPathChars cs = cs := by
  rw [hasDotExtChars] at h
  rw [tempPathChars]
  apply if_neg
  intro hc
  obtain ⟨hc1, hc2⟩ := hc
  have : (!(cs.reverse.takeWhile (fun c => c != '.' && c != '/')).isEmpty
      && ((cs.reverse.drop
        ((cs.reverse.takeWhile (fun c => c != '.' && c != '/')).length)).head?
          == some '.')) = true := by
    rw [Bool.and_eq_true, Bool.not_eq_true']
    exact ⟨hc2, beq_iff_eq.mpr hc1⟩
  rw [h] at this
  cases this

/-- C10: the intermediate path inserts `_temp` before the final
dot-extension of `outputPath`, so it differs from `outputPath` whenever
the final component has a dot-extension; for an extension-less
`outputPath` the derived path equals `outputPath` itself.  Then, in the
two-stage plan, stage 1 writes the artifact at the output path, the
enhance stage fails with sharp's same-file rejection (its input and
output paths coincide), and the cleanup step still deletes the file at
the final output path before returning: the call returns that failure
and the output path is left empty.  (The source path must differ from
the output path, since stage 1 would hit the same sharp restriction
otherwise.) -/
theorem temp_path_derivation :
    (∀ p : String, hasDotExt p = true → tempPathOf p ≠ p)
    ∧ (∀ p : String, hasDotExt p = false → tempPathOf p = p)
    ∧ (∀ (fs : FSState) (i o : String) (opts : RestoreOptions)
        (d : FileData) (f : String),
        hasDotExt o = false → mergedScale opts > 1 →
        fsRead fs i = some d → d.fmt = some f → d.size ≤ maxFileSize →
        f ∈ supportedSharpFormats → o ∉ fs.undeletable → i ≠ o →
        (restoreImage fs i o opts).1.success = false
        ∧ (restoreImage fs i o opts).1.error
            = some "Cannot use same file for input and output"
        ∧ fsRead (restoreImage fs i o opts).2 o = none) := by
  have hid : ∀ p : String, hasDotExt p = false → tempPathOf p = p := by
    intro p h
    rw [tempPathOf, tempPathChars_of_not p.data h]
  refine ⟨?_, hid, ?_⟩
  · intro p h heq
    have hdata : tempPathChars p.data = p.data := congrArg String.data heq
    have hlen := congrArg List.length hdata
    rw [tempPathChars_length p.data h] at hlen
    omega
  · intro fs i o opts d f hext hsc hread hfmt hsize hsup hundel hio
    have hto : tempPathOf o = o := hid o hext
    have hv' : ¬((validateInputFile fs i).valid = false) := by
      simp [validateInputFile, hread, not_lt.mpr hsize, hfmt, hsup]
    have hreadL : List.lookup i fs.files = some d := hread
    refine ⟨?_, ?_, ?_⟩
    · simp [restoreImage, hv', hsc, hto, upscaleImage, enhanceImage, hread,
        hfmt, fsRead_fsWrite_self]
    · simp [restoreImage, hv', hsc, hto, upscaleImage, enhanceImage, hread,
        hfmt, fsRead_fsWrite_self]
    · simp [restoreImage, hv', hsc, hto, upscaleImage, enhanceImage, hreadL,
        hfmt, fsRead, fsWrite, List.lookup, tryUnlink, hundel,
        lookup_filter_self]

/-- C10 witness: "out.png" derives the distinct "out_temp.png"; the
extension-less "outputfile" derives itself, and a concrete two-stage
restore into "outputfile" returns the same-file failure while the file
written at "outputfile" by stage 1 has been deleted. -/
theorem temp_path_derivation_witness :
    tempPathOf "out.png" ≠ "out.png"
    ∧ tempPathOf "out.png" = "out_temp.png"
    ∧ tempPathOf "outputfile" = "outputfile"
    ∧ (restoreImage ⟨[("in.jpg", srcJpeg)], []⟩ "in.jpg" "outputfile" {}).1.success = false
    ∧ (restoreImage ⟨[("in.jpg", srcJpeg)], []⟩ "in.jpg" "outputfile" {}).1.error
        = some "Cannot use same file for input and output"
    ∧ fsRead (restoreImage ⟨[("in.jpg", srcJpeg)], []⟩ "in.jpg" "outputfile" {}).2
        "outputfile" = none := by
  refine ⟨temp_path_derivation.1 "out.png" (by decide), by decide,
    temp_path_derivation.2.1 "outputfile" (by decide), ?_, ?_, ?_⟩
  · exact (temp_path_derivation.2.2 ⟨[("in.jpg", srcJpeg)], []⟩ "in.jpg" "outputfile" {}
      srcJpeg "jpeg" (by decide) (by decide) rfl rfl (by decide) (by decide) (by decide)
      (by decide)).1
  · exact (temp_path_derivation.2.2 ⟨[("in.jpg", srcJpeg)], []⟩ "in.jpg" "outputfile" {}
      srcJpeg "jpeg" (by decide) (by decide) rfl rfl (by decide) (by decide) (by decide)
      (by decide)).2.1
  · exact (temp_path_derivation.2.2 ⟨[("in.jpg", srcJpeg)], []⟩ "in.jpg" "outputfile" {}
      srcJpeg "jpeg" (by decide) (by decide) rfl rfl (by decide) (by decide) (by decide)
      (by decide)).2.2
